import Mathlib

/-!
Verification of the record-extraction core of `cursor-error-compacter`
(`src/formatter.py`).  The core is the body of `process_file` after the text
has been obtained (lines 57-113): a left-to-right regex scan for
diagnostic-record-shaped blocks, per-block field extraction, severity
classification and filtering, path shortening, message cleanup and count
accumulation.

The five field regexes and the block regex are embedded as explicit scanners
over `List Char`, reproducing Python `re` semantics for these concrete
patterns: leftmost starting position wins, lazy `.+?` extends one character
at a time, greedy pieces (`\s*`, `[^"]+`, `\d+`, `[^,}]+`) take the maximal
run.  For all the patterns except the `code` one, backtracking a greedy run
can never succeed, since the character that follows a shortened run is again
a run character, so the maximal run is faithful; the `code` pattern is the
one place where backtracking is observable (whitespace lies inside `[^",}]`)
and it is embedded with its one productive backtracking step, checked
against CPython's `re` on the boundary inputs.  `\s` is embedded as the
exact character set Python's `\s` matches on `str`; `\d` is embedded as the
ten ASCII digits (Python's `\d` additionally covers non-ASCII Unicode
decimal digits, which the inputs at issue do not contain).
-/

namespace Formatter

/-- The exact set of characters matched by Python `re`'s `\s` on `str`
(ASCII whitespace, the separator controls 1C-1F, NEL, NBSP and the Unicode
space separators). -/
def isPySpace (c : Char) : Bool :=
  c == ' ' || c == '\t' || c == '\n' || c == '\x0b' || c == '\x0c' || c == '\r' ||
  c == '\x1c' || c == '\x1d' || c == '\x1e' || c == '\x1f' ||
  c == '\x85' || c == '\xa0' || c == '\u1680' ||
  (0x2000 ≤ c.toNat && c.toNat ≤ 0x200a) ||
  c == '\u2028' || c == '\u2029' || c == '\u202f' || c == '\u205f' || c == '\u3000'

/-- Match a literal list of characters at the head of the input, returning
the remainder on success. -/
def dropLit : List Char → List Char → Option (List Char)
  | [], l => some l
  | _, [] => none
  | p :: ps, c :: cs => if c == p then dropLit ps cs else none

/-- The literal `"resource":` that the block regex
`\{\s*"resource":.+?(?:,"modelVersionId":[^,}]+)?\}` (line 66) requires right
after the opening brace and optional whitespace. -/
def resBlockLit : List Char := "\"resource\":".toList

/-- The literal `,"modelVersionId":` of the optional group of the block
regex (line 66). -/
def mviLit : List Char := ",\"modelVersionId\":".toList

/-- The optional group `(?:,"modelVersionId":[^,}]+)?` followed by `\}`,
tried with the group present: the literal, then a maximal nonempty run of
characters other than `,` and `}`, then the closing `}`.  Returns the
consumed characters and the rest. -/
def tailMatchMVI (l : List Char) : Option (List Char × List Char) :=
  match dropLit mviLit l with
  | some l1 =>
      match l1.span (fun c => !(c == ',' || c == '\x7d')) with
      | (run, rest) =>
          match run, rest with
          | _ :: _, '\x7d' :: rest2 => some (mviLit ++ run ++ ['\x7d'], rest2)
          | _, _ => none
  | none => none

/-- After the lazy `.+?` has consumed some characters, the block regex tries
the optional `modelVersionId` group (present first, as `?` is greedy) and
then the bare closing `\}`. -/
def tailMatch (l : List Char) : Option (List Char × List Char) :=
  match tailMatchMVI l with
  | some r => some r
  | none =>
      match l with
      | '\x7d' :: rest => some (['\x7d'], rest)
      | _ => none

/-- The lazy `.+?` of the block regex under `re.DOTALL`: consume at least
one arbitrary character, extending one character at a time, stopping at the
first position where `tailMatch` succeeds.  Returns the characters consumed
(including the block terminator) and the rest of the input. -/
def scanEnd : List Char → Option (List Char × List Char)
  | [] => none
  | c :: rest =>
      match tailMatch rest with
      | some (consumed, rst) => some (c :: consumed, rst)
      | none =>
          match scanEnd rest with
          | some (cs, rst) => some (c :: cs, rst)
          | none => none

/-- Attempt to match the block regex
`\{\s*"resource":.+?(?:,"modelVersionId":[^,}]+)?\}` (line 66) at the head
of the input: `{`, a maximal whitespace run (greedy `\s*`; shortening it
cannot help since the literal starts with `"`), the literal `"resource":`,
then `scanEnd`.  Returns the matched block and the rest. -/
def matchBlockAt (l : List Char) : Option (List Char × List Char) :=
  match l with
  | '\x7b' :: r =>
      let ws := r.takeWhile isPySpace
      let r1 := r.dropWhile isPySpace
      match dropLit resBlockLit r1 with
      | some r2 =>
          match scanEnd r2 with
          | some (body, rst) => some ('\x7b' :: (ws ++ resBlockLit ++ body), rst)
          | none => none
      | none => none
  | _ => none

/-- One step of `re.finditer` per unit of fuel: try the block pattern at the
current position; on success emit the match and resume right after it
(matches must not overlap), otherwise advance one character. -/
def findMatchesAux : Nat → List Char → List (List Char)
  | 0, _ => []
  | _, [] => []
  | Nat.succ fuel, c :: rest =>
      match matchBlockAt (c :: rest) with
      | some (block, rst) => block :: findMatchesAux fuel rst
      | none => findMatchesAux fuel rest

/-- `re.finditer(pattern, content, re.DOTALL)` of line 67 for the block
pattern of line 66.  Fuel `l.length` suffices: every step strictly shortens
the remaining input (a match always consumes at least the opening brace), so
the recursion depth is at most the input length and the fuel never runs out
before the scan is exhausted. -/
def findMatches (l : List Char) : List (List Char) := findMatchesAux l.length l

/-- Try a field parser at every starting position from left to right:
`re.search` semantics for the per-field patterns. -/
def searchField {α : Type} (f : List Char → Option α) : List Char → Option α
  | [] => f []
  | c :: rest =>
      match f (c :: rest) with
      | some v => some v
      | none => searchField f rest

/-- The prefix `<key>\s*:\s*` of the quoted-value and digit-value field
regexes: the quoted key literal, greedy whitespace, `:`, greedy whitespace.
Shortening either whitespace run cannot help for these regexes, since
neither `:` nor what follows the second run there (`"` or a digit) is
whitespace.  (The `code` regex needs its own treatment, see `codeValAt`.) -/
def afterKeyColon (key : List Char) (l : List Char) : Option (List Char) :=
  match dropLit key l with
  | some l1 =>
      match l1.dropWhile isPySpace with
      | ':' :: l2 => some (l2.dropWhile isPySpace)
      | _ => none
  | none => none

/-- `<key>\s*:\s*"([^"]*)"` at the head of the input (with `allowEmpty` for
`*` versus `+` on the character class): an opening quote, the maximal run of
non-quote characters, a closing quote.  A shortened run ends before a
non-quote character, so greedy backtracking can never succeed and the
maximal run is faithful. -/
def quotedValAt (key : List Char) (allowEmpty : Bool) (l : List Char) :
    Option (List Char) :=
  match afterKeyColon key l with
  | some l2 =>
      match l2 with
      | '"' :: l3 =>
          match l3.span (fun c => c != '"') with
          | (v, '"' :: _) => if allowEmpty || !v.isEmpty then some v else none
          | _ => none
      | _ => none
  | none => none

/-- `<key>\s*:\s*(\d+)` at the head of the input: the maximal nonempty digit
run, returned as the captured digit characters (the source keeps
`startLineNumber` as the captured string and applies `int` only to
`severity`). -/
def digitsValAt (key : List Char) (l : List Char) : Option (List Char) :=
  match afterKeyColon key l with
  | some l2 =>
      match l2.takeWhile Char.isDigit with
      | [] => none
      | ds => some ds
  | none => none

/-- The character class `[^",}]` of the `code` regex (line 76). -/
def codeClass (c : Char) : Bool := c != '"' && c != ',' && c != '\x7d'

/-- The tail `"?([^",}]+)"?` of the `code` regex, attempted with the second
`\s*` at its maximal extent: the greedy `"?` consumes a quote when one is
present; the capture group then needs at least one class character.  If the
quote is present but followed by a non-class character, backtracking to the
empty `"?` also fails, since `"` itself is not in the class.  The trailing
`"?` never affects the capture. -/
def codeAttemptAt (l4 : List Char) : Option (List Char) :=
  match l4 with
  | '"' :: l3 =>
      match l3 with
      | c :: _ => if codeClass c then some (l3.takeWhile codeClass) else none
      | [] => none
  | c :: _ => if codeClass c then some (l4.takeWhile codeClass) else none
  | [] => none

/-- `"code"\s*:\s*"?([^",}]+)"?` at the head of the input.  The `\s*` after
the colon is tried at its maximal width `W` first.  When that attempt fails
and `W ≥ 1`, backtracking to width `W - 1` always succeeds: its first
character is a whitespace character, which lies in `[^",}]`, makes `"?`
empty and starts the capture group, and in every case where the width-`W`
attempt failed the group then stops right there, capturing exactly that one
whitespace character (widths below `W - 1` are therefore never reached).
This matches CPython, e.g. `'\x7b"code": ""\x7d'` captures `' '`.  The
`\s*` before the colon cannot usefully backtrack since `:` is not
whitespace. -/
def codeValAt (l : List Char) : Option (List Char) :=
  match dropLit "\"code\"".toList l with
  | some l1 =>
      match l1.dropWhile isPySpace with
      | ':' :: l2 =>
          let ws := l2.takeWhile isPySpace
          let l4 := l2.dropWhile isPySpace
          match codeAttemptAt l4 with
          | some v => some v
          | none =>
              match ws.getLast? with
              | some w => some [w]
              | none => none
      | _ => none
  | none => none

/-- Line 73: `re.search(r'"resource"\s*:\s*"([^"]+)"', block)`. -/
def searchResource (b : List Char) : Option (List Char) :=
  searchField (quotedValAt "\"resource\"".toList false) b

/-- Line 75: `re.search(r'"message"\s*:\s*"([^"]*)"', block)`. -/
def searchMessage (b : List Char) : Option (List Char) :=
  searchField (quotedValAt "\"message\"".toList true) b

/-- Line 74: `re.search(r'"severity"\s*:\s*(\d+)', block)`. -/
def searchSeverity (b : List Char) : Option (List Char) :=
  searchField (digitsValAt "\"severity\"".toList) b

/-- Line 76: `re.search(r'"code"\s*:\s*"?([^",}]+)"?', block)`. -/
def searchCode (b : List Char) : Option (List Char) :=
  searchField codeValAt b

/-- Line 77: `re.search(r'"startLineNumber"\s*:\s*(\d+)', block)`. -/
def searchStartLine (b : List Char) : Option (List Char) :=
  searchField (digitsValAt "\"startLineNumber\"".toList) b

/-- Python `int` on a captured `\d+` string. -/
def digitsToNat (ds : List Char) : Nat :=
  ds.foldl (fun n c => n * 10 + (c.toNat - 48)) 0

/-- Line 88: `severity = int(severity_match.group(1)) if severity_match
else 0`. -/
def severityOf (b : List Char) : Nat :=
  match searchSeverity b with
  | some ds => digitsToNat ds
  | none => 0

/-- Line 94: `msg_type = "ERROR" if severity >= 8 else "WARNING" if
severity >= 4 else "INFO"`. -/
def classifySeverity (severity : Nat) : String :=
  if 8 ≤ severity then "ERROR" else if 4 ≤ severity then "WARNING" else "INFO"

/-- Line 99: `line = line_match.group(1) if line_match else "?"`. -/
def lineStrOf (b : List Char) : String :=
  match searchStartLine b with
  | some ds => String.mk ds
  | none => "?"

/-- Line 102: `code = code_match.group(1) if code_match else ""`. -/
def codeStrOf (b : List Char) : String :=
  match searchCode b with
  | some cs => String.mk cs
  | none => ""

/-- Python `str.replace` for a fixed two-character pattern `a, b` and
replacement `r`: left-to-right, non-overlapping, scanning resumes after the
replacement. -/
def replace2 (a b : Char) (r : List Char) : List Char → List Char
  | [] => []
  | [c] => [c]
  | c :: d :: rest =>
      if c == a && d == b then r ++ replace2 a b r rest
      else c :: replace2 a b r (d :: rest)

/-- Lines 105-106: `message = message_match.group(1).replace('\\`', '`')`
then `message = message.replace('\\n', ' ')` — first unescape
backslash-backtick to a bare backtick, then turn the two-character sequence
backslash-`n` into a single space. -/
def cleanMessage (m : List Char) : List Char :=
  replace2 '\\' 'n' [' '] (replace2 '\\' '\x60' ['\x60'] m)

/-- Python `str.split` on the single character `'/'`: always returns at
least one (possibly empty) component. -/
def splitOnChar (sep : Char) (l : List Char) : List (List Char) :=
  l.foldr
    (fun c acc =>
      if c == sep then [] :: acc
      else
        match acc with
        | [] => [[c]]
        | h :: t => (c :: h) :: t)
    [[]]

/-- Line 81: `path_parts = resource_match.group(1).replace('\\', '/').split('/')`. -/
def pathComponents (r : List Char) : List (List Char) :=
  splitOnChar '/' (r.map (fun c => if c == '\\' then '/' else c))

/-- Lines 82-85: keep the last `max_path_depth` components joined by `/`
when `max_path_depth > 0` and the path is longer than that, else keep only
the basename (`path_parts[-1]`; the split list is never empty, so the
default of `getLastD` is unreachable). -/
def shortenPath (max_path_depth : Int) (r : List Char) : List Char :=
  let parts := pathComponents r
  if max_path_depth > 0 ∧ max_path_depth < (parts.length : Int) then
    List.intercalate ['/'] (parts.drop (parts.length - max_path_depth.toNat))
  else
    parts.getLastD []

/-- The counts dictionary of line 63: `{"ERROR": 0, "WARNING": 0, "INFO": 0,
"TOTAL": 0}`. -/
structure Counts where
  ERROR : Nat
  WARNING : Nat
  INFO : Nat
  TOTAL : Nat
deriving Repr, DecidableEq

/-- The zero-initialised counts of line 63. -/
def zeroCounts : Counts := ⟨0, 0, 0, 0⟩

/-- Lines 95-96: `counts[msg_type] += 1` followed by `counts["TOTAL"] += 1`
(the category produced by line 94 is always one of the three keys, so the
fall-through branch is unreachable). -/
def bump (cat : String) (c : Counts) : Counts :=
  let c1 : Counts :=
    if cat = "ERROR" then ⟨c.ERROR + 1, c.WARNING, c.INFO, c.TOTAL⟩
    else if cat = "WARNING" then ⟨c.ERROR, c.WARNING + 1, c.INFO, c.TOTAL⟩
    else if cat = "INFO" then ⟨c.ERROR, c.WARNING, c.INFO + 1, c.TOTAL⟩
    else c
  ⟨c1.ERROR, c1.WARNING, c1.INFO, c1.TOTAL + 1⟩

/-- Lines 73-111, the per-block body of the loop: extract the fields, skip
the block when `resource` or `message` is missing (line 79), shorten the
path (lines 81-85), compute and filter the severity (lines 88-92), classify
(line 94), and format (line 109).  Returns the formatted line together with
the category to be counted, or `none` when the block is skipped. -/
def processBlock (max_path_depth min_severity : Int) (block : List Char) :
    Option (String × String) :=
  match searchResource block, searchMessage block with
  | some resource, some message =>
      let filePath := String.mk (shortenPath max_path_depth resource)
      let severity := severityOf block
      if (severity : Int) < min_severity then none
      else
        let msg_type := classifySeverity severity
        some (msg_type ++ " [" ++ filePath ++ ":" ++ lineStrOf block ++ "] " ++
              codeStrOf block ++ ": " ++ String.mk (cleanMessage message),
              msg_type)
  | _, _ => none

/-- One iteration of the `for match in matches` loop of lines 69-111: a
skipped block leaves the accumulated lines and counts unchanged; an emitted
block appends its line and bumps its category and TOTAL. -/
def processStep (d s : Int) (acc : List String × Counts) (block : List Char) :
    List String × Counts :=
  match processBlock d s block with
  | none => acc
  | some (line, cat) => (acc.1 ++ [line], bump cat acc.2)

/-- Lines 57-113 of `process_file`, after the text has been obtained (file
reading and its encoding fallback are upstream I/O): scan the content for
diagnostic blocks and fold the per-block loop over the matches.  The
validity pre-check of lines 58-60 (`is_valid_json`, a wrapper around
`json.loads`) only prints a warning and contributes nothing to the returned
value. -/
def process_file (content : String) (max_path_depth min_severity : Int) :
    List String × Counts :=
  List.foldl (processStep max_path_depth min_severity) ([], zeroCounts)
    (findMatches content.toList)

/-- Lines 57-113 with the advisory JSON-validity flag made explicit: in the
source the flag computed by `is_valid_json` (lines 24-42, a cascade of
`json.loads` attempts on the text, on `[text]` and on each line) controls
only the two warning prints of lines 59-60, so the extraction result is the
same function of the content whatever the flag's value. -/
def process_file_with_advisory (_jsonValid : Bool) (content : String)
    (max_path_depth min_severity : Int) : List String × Counts :=
  process_file content max_path_depth min_severity

/-- The diagnostic block of the spec's field-extraction property: resource
`/a/b/c.ts`, severity 9, message `oops`, code `TS2304`, startLineNumber 42. -/
def sampleInput : String :=
  "\x7b\"resource\":\"/a/b/c.ts\",\"severity\":9,\"message\":\"oops\",\"code\":\"TS2304\",\"startLineNumber\":42\x7d"

/-- Three diagnostic blocks for paths X, Y, X again in that textual order,
with severities 9, 1, 9, to exercise output ordering. -/
def orderingInput : String :=
  "\x7b\"resource\":\"/x.ts\",\"severity\":9,\"message\":\"m1\"\x7d" ++
  "\x7b\"resource\":\"/y.ts\",\"severity\":1,\"message\":\"m2\"\x7d" ++
  "\x7b\"resource\":\"/x.ts\",\"severity\":9,\"message\":\"m3\"\x7d"

/-- A block with severity 3, below a `min_severity` of 5. -/
def lowSevBlock : List Char :=
  "\x7b\"resource\":\"/a.ts\",\"severity\":3,\"message\":\"m\"\x7d".toList

/-- A block with severity 5, exactly at a `min_severity` of 5. -/
def eqSevBlock : List Char :=
  "\x7b\"resource\":\"/a.ts\",\"severity\":5,\"message\":\"m\"\x7d".toList

/-- A block with a `resource` field but no `message` field. -/
def noMessageBlock : List Char :=
  "\x7b\"resource\":\"/a/b.ts\",\"severity\":9\x7d".toList

/-- Text that is not valid JSON by any strategy and contains no
diagnostic-record-shaped substring. -/
def garbageInput : String := "not valid json at all, [\x7btruncated"

/- ------------------------------------------------------------------ -/
/- Helper lemmas                                                      -/
/- ------------------------------------------------------------------ -/

lemma bump_ERROR (c : Counts) :
    bump "ERROR" c = ⟨c.ERROR + 1, c.WARNING, c.INFO, c.TOTAL + 1⟩ := rfl

lemma bump_WARNING (c : Counts) :
    bump "WARNING" c = ⟨c.ERROR, c.WARNING + 1, c.INFO, c.TOTAL + 1⟩ := rfl

lemma bump_INFO (c : Counts) :
    bump "INFO" c = ⟨c.ERROR, c.WARNING, c.INFO + 1, c.TOTAL + 1⟩ := rfl

lemma classify_cases (s : Nat) :
    classifySeverity s = "ERROR" ∨ classifySeverity s = "WARNING" ∨
      classifySeverity s = "INFO" := by
  unfold classifySeverity
  split
  · exact Or.inl rfl
  split
  · exact Or.inr (Or.inl rfl)
  · exact Or.inr (Or.inr rfl)

lemma bump_classify (s : Nat) (c : Counts) :
    (bump (classifySeverity s) c).TOTAL = c.TOTAL + 1 ∧
    (bump (classifySeverity s) c).ERROR + (bump (classifySeverity s) c).WARNING
        + (bump (classifySeverity s) c).INFO
      = c.ERROR + c.WARNING + c.INFO + 1 := by
  rcases classify_cases s with h | h | h <;> rw [h]
  · rw [bump_ERROR]; exact ⟨rfl, by dsimp only; omega⟩
  · rw [bump_WARNING]; exact ⟨rfl, by dsimp only; omega⟩
  · rw [bump_INFO]; exact ⟨rfl, by dsimp only; omega⟩

lemma processStep_of_none {d s : Int} {b : List Char}
    (h : processBlock d s b = none) (acc : List String × Counts) :
    processStep d s acc b = acc := by
  unfold processStep; rw [h]

lemma processStep_of_some {d s : Int} {b : List Char} {line cat : String}
    (h : processBlock d s b = some (line, cat)) (acc : List String × Counts) :
    processStep d s acc b = (acc.1 ++ [line], bump cat acc.2) := by
  unfold processStep; rw [h]

lemma processBlock_cat {d s : Int} {b : List Char} {line cat : String}
    (h : processBlock d s b = some (line, cat)) :
    cat = classifySeverity (severityOf b) := by
  unfold processBlock at h
  cases hr : searchResource b <;> rw [hr] at h
  · simp at h
  cases hm : searchMessage b <;> rw [hm] at h
  · simp at h
  simp only [] at h
  split at h
  · simp at h
  · simp at h
    exact h.2.symm

lemma foldl_invariant (d s : Int) :
    ∀ (ms : List (List Char)) (acc : List String × Counts),
      acc.2.TOTAL = acc.2.ERROR + acc.2.WARNING + acc.2.INFO →
      acc.2.TOTAL = acc.1.length →
      (List.foldl (processStep d s) acc ms).2.TOTAL
          = (List.foldl (processStep d s) acc ms).2.ERROR
            + (List.foldl (processStep d s) acc ms).2.WARNING
            + (List.foldl (processStep d s) acc ms).2.INFO ∧
        (List.foldl (processStep d s) acc ms).2.TOTAL
          = (List.foldl (processStep d s) acc ms).1.length := by
  intro ms
  induction ms with
  | nil => intro acc h1 h2; exact ⟨h1, h2⟩
  | cons b rest ih =>
      intro acc h1 h2
      rw [List.foldl_cons]
      cases hpb : processBlock d s b with
      | none => rw [processStep_of_none hpb]; exact ih acc h1 h2
      | some lc =>
          obtain ⟨line, cat⟩ := lc
          rw [processStep_of_some hpb]
          rw [processBlock_cat hpb] at *
          have hb := bump_classify (severityOf b) acc.2
          apply ih
          · dsimp only
            omega
          · dsimp only
            rw [List.length_append]
            dsimp only [List.length_cons, List.length_nil]
            omega

lemma foldl_lines (d s : Int) :
    ∀ (ms : List (List Char)) (acc : List String × Counts),
      (List.foldl (processStep d s) acc ms).1
        = acc.1 ++ ms.filterMap (fun b => Option.map Prod.fst (processBlock d s b)) := by
  intro ms
  induction ms with
  | nil => intro acc; simp
  | cons b rest ih =>
      intro acc
      rw [List.foldl_cons, List.filterMap_cons]
      cases hpb : processBlock d s b with
      | none => rw [processStep_of_none hpb]; simp [ih]
      | some lc =>
          obtain ⟨line, cat⟩ := lc
          rw [processStep_of_some hpb]
          simp [ih]

lemma processBlock_cat_depth (d₁ d₂ s : Int) (b : List Char) :
    Option.map Prod.snd (processBlock d₁ s b)
      = Option.map Prod.snd (processBlock d₂ s b) := by
  unfold processBlock
  cases searchResource b <;> cases searchMessage b
  · rfl
  · rfl
  · rfl
  · by_cases h : ((severityOf b : Int) < s) <;> simp [h]

lemma foldl_counts_depth (d₁ d₂ s : Int) :
    ∀ (ms : List (List Char)) (acc₁ acc₂ : List String × Counts),
      acc₁.2 = acc₂.2 → acc₁.1.length = acc₂.1.length →
      (List.foldl (processStep d₁ s) acc₁ ms).2
          = (List.foldl (processStep d₂ s) acc₂ ms).2 ∧
        (List.foldl (processStep d₁ s) acc₁ ms).1.length
          = (List.foldl (processStep d₂ s) acc₂ ms).1.length := by
  intro ms
  induction ms with
  | nil => intro acc₁ acc₂ h1 h2; exact ⟨h1, h2⟩
  | cons b rest ih =>
      intro acc₁ acc₂ h1 h2
      rw [List.foldl_cons, List.foldl_cons]
      have hmap := processBlock_cat_depth d₁ d₂ s b
      cases hp1 : processBlock d₁ s b with
      | none =>
          cases hp2 : processBlock d₂ s b with
          | none =>
              rw [processStep_of_none hp1, processStep_of_none hp2]
              exact ih acc₁ acc₂ h1 h2
          | some lc2 => rw [hp1, hp2] at hmap; exact Option.noConfusion hmap
      | some lc1 =>
          cases hp2 : processBlock d₂ s b with
          | none => rw [hp1, hp2] at hmap; exact Option.noConfusion hmap
          | some lc2 =>
              obtain ⟨l1, c1⟩ := lc1
              obtain ⟨l2, c2⟩ := lc2
              rw [hp1, hp2] at hmap
              injection hmap with hcat
              dsimp only at hcat
              rw [processStep_of_some hp1, processStep_of_some hp2]
              apply ih
              · dsimp only
                rw [h1, hcat]
              · dsimp only
                rw [List.length_append, List.length_append, h2]
                simp

/- ------------------------------------------------------------------ -/
/- Claims                                                             -/
/- ------------------------------------------------------------------ -/

set_option maxRecDepth 4000

/-- C1: for every matched diagnostic block the severity category is a pure
function of the extracted severity integer (absent treated as 0):
severity ≥ 8 yields ERROR, 4 ≤ severity < 8 yields WARNING, any other value
yields INFO, and values above 10 are classified by the same thresholds
(severity 12 yields ERROR). -/
theorem severity_classification :
    (∀ (d s : Int) (b : List Char) (line cat : String),
        processBlock d s b = some (line, cat) →
        cat = classifySeverity (severityOf b)) ∧
    (∀ sev : Nat, 8 ≤ sev → classifySeverity sev = "ERROR") ∧
    (∀ sev : Nat, 4 ≤ sev → sev < 8 → classifySeverity sev = "WARNING") ∧
    (∀ sev : Nat, sev < 4 → classifySeverity sev = "INFO") ∧
    (∀ b : List Char, searchSeverity b = none → severityOf b = 0) ∧
    classifySeverity 12 = "ERROR" := by
  refine ⟨fun d s b line cat h => processBlock_cat h, fun sev h => ?_,
    fun sev h4 h8 => ?_, fun sev h => ?_, fun b h => ?_, by decide⟩
  · simp only [classifySeverity]
    rw [if_pos h]
  · simp only [classifySeverity]
    rw [if_neg (by omega), if_pos h4]
  · simp only [classifySeverity]
    rw [if_neg (by omega), if_neg (by omega)]
  · simp [severityOf, h]

/-- Witness for `severity_classification`: the concrete sample block is
categorised ERROR, and the boundary severities 9, 7, 4, 3 land in ERROR,
WARNING, WARNING, INFO. -/
theorem severity_classification_witness :
    "ERROR" = classifySeverity (severityOf sampleInput.toList) ∧
    classifySeverity 9 = "ERROR" ∧ classifySeverity 7 = "WARNING" ∧
    classifySeverity 4 = "WARNING" ∧ classifySeverity 3 = "INFO" :=
  ⟨severity_classification.1 1 0 sampleInput.toList
      "ERROR [c.ts:42] TS2304: oops" "ERROR" (by decide),
   severity_classification.2.1 9 (by decide),
   severity_classification.2.2.1 7 (by decide) (by decide),
   severity_classification.2.2.1 4 (by decide) (by decide),
   severity_classification.2.2.2.1 3 (by decide)⟩

/-- C2: on the input holding a block with resource `/a/b/c.ts`, severity 9,
message `oops`, code `TS2304`, startLineNumber 42, run with maxPathDepth 1
and minSeverity 0, the extractor produces exactly the canonical line
`ERROR [c.ts:42] TS2304: oops` and final counts ERROR = 1, WARNING = 0,
INFO = 0, TOTAL = 1. -/
theorem field_extraction_sample :
    process_file sampleInput 1 0 =
      (["ERROR [c.ts:42] TS2304: oops"], ⟨1, 0, 0, 1⟩) := by decide

/-- C3: path shortening splits the backslash-normalised resource on `/`;
when maxPathDepth > 0 and the component count exceeds it, the displayed path
is the last maxPathDepth components joined by `/`, otherwise only the final
component; `/a/b/c.ts` yields `b/c.ts` at depth 2 and `c.ts` at depth 0; and
the depth never changes which records are emitted or the counts. -/
theorem path_shortening :
    (∀ (d : Int) (r : List Char),
        0 < d → d < ((pathComponents r).length : Int) →
        shortenPath d r
          = List.intercalate ['/']
              ((pathComponents r).drop ((pathComponents r).length - d.toNat))) ∧
    (∀ (d : Int) (r : List Char),
        ¬(0 < d ∧ d < ((pathComponents r).length : Int)) →
        shortenPath d r = (pathComponents r).getLastD []) ∧
    shortenPath 2 "/a/b/c.ts".toList = "b/c.ts".toList ∧
    shortenPath 0 "/a/b/c.ts".toList = "c.ts".toList ∧
    (∀ (content : String) (d₁ d₂ s : Int),
        (process_file content d₁ s).2 = (process_file content d₂ s).2 ∧
        (process_file content d₁ s).1.length = (process_file content d₂ s).1.length) := by
  refine ⟨fun d r h1 h2 => ?_, fun d r h => ?_, by decide, by decide,
    fun content d₁ d₂ s => ?_⟩
  · simp only [shortenPath]
    rw [if_pos ⟨h1, h2⟩]
  · simp only [shortenPath]
    rw [if_neg h]
  · unfold process_file
    exact foldl_counts_depth d₁ d₂ s _ _ _ rfl rfl

/-- Witness for `path_shortening`: both branches evaluated at the concrete
resource `/a/b/c.ts`, at depth 2 (keep the last two components) and depth 0
(basename only). -/
theorem path_shortening_witness :
    shortenPath 2 "/a/b/c.ts".toList
        = List.intercalate ['/']
            ((pathComponents "/a/b/c.ts".toList).drop
              ((pathComponents "/a/b/c.ts".toList).length - (2 : Int).toNat)) ∧
    shortenPath 0 "/a/b/c.ts".toList
        = (pathComponents "/a/b/c.ts".toList).getLastD [] :=
  ⟨path_shortening.1 2 "/a/b/c.ts".toList (by decide) (by decide),
   path_shortening.2.1 0 "/a/b/c.ts".toList (by decide)⟩

/-- C4: a matched block whose extracted severity (0 when absent) is strictly
below minSeverity is discarded entirely — it yields no output line and
changes none of the counts — while a block with both required fields whose
severity equals minSeverity is emitted. -/
theorem severity_filter :
    (∀ (d s : Int) (b : List Char),
        (severityOf b : Int) < s → processBlock d s b = none) ∧
    (∀ (d s : Int) (b : List Char) (acc : List String × Counts),
        (severityOf b : Int) < s → processStep d s acc b = acc) ∧
    (∀ (d s : Int) (b r m : List Char),
        searchResource b = some r → searchMessage b = some m →
        (severityOf b : Int) = s → (processBlock d s b).isSome = true) := by
  have h1 : ∀ (d s : Int) (b : List Char),
      (severityOf b : Int) < s → processBlock d s b = none := by
    intro d s b h
    unfold processBlock
    cases searchResource b <;> cases searchMessage b
    · rfl
    · rfl
    · rfl
    · simp only []
      rw [if_pos h]
  refine ⟨h1, fun d s b acc h => processStep_of_none (h1 d s b h) acc, ?_⟩
  intro d s b r m hr hm hs
  unfold processBlock
  rw [hr, hm]
  simp only []
  rw [if_neg (by omega)]
  rfl

/-- Witness for `severity_filter`: with minSeverity 5, the severity-3 block
is dropped from lines and counts, and the severity-5 block is emitted. -/
theorem severity_filter_witness :
    processBlock 1 5 lowSevBlock = none ∧
      processStep 1 5 ([], zeroCounts) lowSevBlock = ([], zeroCounts) ∧
      (processBlock 1 5 eqSevBlock).isSome = true :=
  ⟨severity_filter.1 1 5 lowSevBlock (by decide),
   severity_filter.2.1 1 5 lowSevBlock ([], zeroCounts) (by decide),
   severity_filter.2.2 1 5 eqSevBlock "/a.ts".toList "m".toList (by decide)
     (by decide) (by decide)⟩

/-- C5: a matched block in which the resource or the message field cannot be
extracted as a quoted string value is silently skipped — no output line, no
count change, no error — even when the other required field is present. -/
theorem missing_required_field_skipped :
    ∀ (d s : Int) (b : List Char),
      searchResource b = none ∨ searchMessage b = none →
      processBlock d s b = none ∧
        ∀ acc : List String × Counts, processStep d s acc b = acc := by
  intro d s b h
  have hnone : processBlock d s b = none := by
    unfold processBlock
    rcases h with h | h
    · rw [h]
    · rw [h]
      cases searchResource b <;> rfl
  exact ⟨hnone, fun acc => processStep_of_none hnone acc⟩

/-- Witness for `missing_required_field_skipped`: the block with a resource
but no message yields no line and leaves the accumulator untouched. -/
theorem missing_required_field_witness :
    searchResource noMessageBlock = some "/a/b.ts".toList ∧
      processBlock 1 0 noMessageBlock = none ∧
      processStep 1 0 ([], zeroCounts) noMessageBlock = ([], zeroCounts) := by
  have h := missing_required_field_skipped 1 0 noMessageBlock (Or.inr (by decide))
  exact ⟨by decide, h.1, h.2 ([], zeroCounts)⟩

/-- C6: in every emitted line the message part is the extracted message with
each two-character sequence backslash-backtick replaced by a bare backtick
and each two-character sequence backslash-n replaced by a single space. -/
theorem message_cleanup :
    (∀ (d s : Int) (b r m : List Char) (line cat : String),
        searchResource b = some r → searchMessage b = some m →
        processBlock d s b = some (line, cat) →
        line = classifySeverity (severityOf b) ++ " ["
                ++ String.mk (shortenPath d r) ++ ":" ++ lineStrOf b ++ "] "
                ++ codeStrOf b ++ ": " ++ String.mk (cleanMessage m)) ∧
    cleanMessage "Type \x60X\x60 expected\\nfound \\\x60Y\\\x60".toList
      = "Type \x60X\x60 expected found \x60Y\x60".toList := by
  constructor
  · intro d s b r m line cat hr hm hp
    unfold processBlock at hp
    rw [hr, hm] at hp
    simp only [] at hp
    split at hp
    · exact Option.noConfusion hp
    · injection hp with hpair
      rw [Prod.mk.injEq] at hpair
      exact hpair.1.symm
  · decide

/-- Witness for `message_cleanup`: the emitted line of the concrete sample
block decomposes into the canonical pieces with the cleaned message. -/
theorem message_cleanup_witness :
    "ERROR [c.ts:42] TS2304: oops"
      = classifySeverity (severityOf sampleInput.toList) ++ " ["
        ++ String.mk (shortenPath 1 "/a/b/c.ts".toList) ++ ":"
        ++ lineStrOf sampleInput.toList ++ "] " ++ codeStrOf sampleInput.toList
        ++ ": " ++ String.mk (cleanMessage "oops".toList) :=
  message_cleanup.1 1 0 sampleInput.toList "/a/b/c.ts".toList "oops".toList
    "ERROR [c.ts:42] TS2304: oops" "ERROR" (by decide) (by decide) (by decide)

/-- C7: for every input and configuration, TOTAL = ERROR + WARNING + INFO
holds in the counts after processing any prefix of the matched blocks (each
emitted record increments exactly one category and TOTAL together), and in
particular in the final counts. -/
theorem counts_invariant :
    (∀ (content : String) (d s : Int) (k : Nat),
        (List.foldl (processStep d s) ([], zeroCounts)
            ((findMatches content.toList).take k)).2.TOTAL
          = (List.foldl (processStep d s) ([], zeroCounts)
                ((findMatches content.toList).take k)).2.ERROR
            + (List.foldl (processStep d s) ([], zeroCounts)
                ((findMatches content.toList).take k)).2.WARNING
            + (List.foldl (processStep d s) ([], zeroCounts)
                ((findMatches content.toList).take k)).2.INFO) ∧
    (∀ (content : String) (d s : Int),
        (process_file content d s).2.TOTAL
          = (process_file content d s).2.ERROR
            + (process_file content d s).2.WARNING
            + (process_file content d s).2.INFO) := by
  constructor
  · intro content d s k
    exact (foldl_invariant d s _ ([], zeroCounts) rfl rfl).1
  · intro content d s
    unfold process_file
    exact (foldl_invariant d s _ ([], zeroCounts) rfl rfl).1

/-- C8: the output lines are exactly the in-order image of the matched
blocks (a left-to-right `filterMap`), so output order is scan order with no
regrouping and no deduplication; on the concrete X, Y, X input the three
lines come out in exactly that order. -/
theorem ordering_preserved :
    (∀ (content : String) (d s : Int),
        (process_file content d s).1
          = (findMatches content.toList).filterMap
              (fun b => Option.map Prod.fst (processBlock d s b))) ∧
    process_file orderingInput 1 0
      = (["ERROR [x.ts:?] : m1", "INFO [y.ts:?] : m2", "ERROR [x.ts:?] : m3"],
          ⟨2, 0, 1, 3⟩) := by
  constructor
  · intro content d s
    unfold process_file
    rw [foldl_lines]
    rfl
  · decide

/-- C9: once the text is in hand extraction is total and the JSON-validity
pre-check never gates it; for input with no diagnostic-record-shaped
substrings it returns no lines and all counts zero. -/
theorem never_fails_no_match :
    (∀ (content : String) (d s : Int),
        findMatches content.toList = [] →
        process_file content d s = ([], zeroCounts)) ∧
    (∀ (v : Bool) (content : String) (d s : Int),
        process_file_with_advisory v content d s = process_file content d s) := by
  constructor
  · intro content d s h
    unfold process_file
    rw [h, List.foldl_nil]
  · intro v content d s
    rfl

/-- Witness for `never_fails_no_match`: on text that is not JSON by any
strategy and holds no block, the result is no lines and zero counts. -/
theorem never_fails_no_match_witness :
    process_file garbageInput 1 0 = ([], zeroCounts) :=
  never_fails_no_match.1 garbageInput 1 0 (by decide)

/-- C10: for every input and configuration the TOTAL count equals the number
of returned formatted lines — every counted record is emitted as exactly one
line and vice versa. -/
theorem total_equals_line_count :
    ∀ (content : String) (d s : Int),
      (process_file content d s).2.TOTAL = (process_file content d s).1.length := by
  intro content d s
  unfold process_file
  exact (foldl_invariant d s _ ([], zeroCounts) rfl rfl).2

end Formatter
